import Mathlib

set_option maxRecDepth 1000000

/-!
Verification of `convert.py` (KML point → DJI mission waypoint converter).

The Python source is shallowly embedded below.  Strings are modelled as
`List Char` (`Str`).  Python `float` values that arise in this program are
only ever produced by parsing decimal text and serialized back, never used
arithmetically, so they are modelled exactly as a decimal pair
`mant * 10^(-scale)` (`PyNum`); `inf`/`nan`/underscore literals of Python's
`float()` are outside the model.  File-system effects are modelled as data:
a missing file is `none`, an unparsable file is `some none`, and the run
result records the process exit code and the ordered list of
`(filename, content)` writes.
-/

abbrev Str := List Char

/-- Python whitespace class, as used by `str.strip()` and the regex `\s`
(restricted to the ASCII whitespace characters). -/
def pyWs (c : Char) : Bool :=
  c = ' ' || c = '\t' || c = '\n' || c = '\r' || c = '\x0b' || c = '\x0c'

/-- Leading-whitespace strip (left half of Python `str.strip()`). -/
def stripL (s : Str) : Str := s.dropWhile pyWs

/-- Trailing-whitespace strip (right half of Python `str.strip()`). -/
def stripR (s : Str) : Str := (s.reverse.dropWhile pyWs).reverse

/-- Python `str.strip()`. -/
def stripBoth (s : Str) : Str := stripR (stripL s)

/-- Python `str.split(',')`: splits on every comma; `""` gives `[""]`. -/
def splitC : Str → List Str
  | [] => [[]]
  | c :: rest =>
    match splitC rest with
    | [] => [[]]
    | t :: ts => if c = ',' then [] :: t :: ts else (c :: t) :: ts

/-- Exact value of a Python float literal in this program:
`mant * 10 ^ (- (scale : ℤ))`. -/
structure PyNum where
  mant : ℤ
  scale : ℕ
deriving DecidableEq, Repr

/-- Numeric value of a list of decimal digit characters (most significant
first), as accumulated by positional parsing. -/
def digitsVal (l : Str) : ℕ := l.foldl (fun a c => a * 10 + (c.toNat - 48)) 0

/-- Fold a parsed exponent into the mantissa/scale pair
(`mant * 10^(-scale) * 10^(±ed)`). -/
def applyExp (m : ℤ) (sc : ℕ) (eneg : Bool) (ed : ℕ) : PyNum :=
  if eneg then ⟨m, sc + ed⟩
  else if ed ≤ sc then ⟨m, sc - ed⟩
  else ⟨m * (10 : ℤ) ^ (ed - sc), 0⟩

/-- Python `float(s)` on the decimal forms accepted in this program:
optional surrounding whitespace, optional sign, digits with optional
fraction, optional exponent.  Failure (Python `ValueError`) is `none`. -/
def pyFloat? (s : Str) : Option PyNum :=
  let t := stripBoth s
  let sgn : Bool × Str :=
    match t with
    | '+' :: r => (false, r)
    | '-' :: r => (true, r)
    | r => (false, r)
  let ip := sgn.2.takeWhile Char.isDigit
  let t2 := sgn.2.dropWhile Char.isDigit
  let fr : Str × Str :=
    match t2 with
    | '.' :: r => (r.takeWhile Char.isDigit, r.dropWhile Char.isDigit)
    | _ => ([], t2)
  if ip.isEmpty && fr.1.isEmpty then none
  else
    let m0 : ℤ := Int.ofNat (digitsVal (ip ++ fr.1))
    let m : ℤ := if sgn.1 then -m0 else m0
    match fr.2 with
    | [] => some ⟨m, fr.1.length⟩
    | e :: r =>
      if e = 'e' ∨ e = 'E' then
        let esgn : Bool × Str :=
          match r with
          | '+' :: rr => (false, rr)
          | '-' :: rr => (true, rr)
          | rr => (false, rr)
        let ed := esgn.2.takeWhile Char.isDigit
        let r2 := esgn.2.dropWhile Char.isDigit
        if ed.isEmpty || !r2.isEmpty then none
        else some (applyExp m fr.1.length esgn.1 (digitsVal ed))
      else none

/-- Decimal digit character for `d % 10`. -/
def digitChar (d : ℕ) : Char := "0123456789".data.getD (d % 10) '0'

/-- Little-endian decimal digits of `n` (with fuel; `natDigitsRev n n` is
total since each step divides by 10). -/
def natDigitsRev : ℕ → ℕ → List ℕ
  | 0, _ => []
  | f + 1, n => if n = 0 then [] else n % 10 :: natDigitsRev f (n / 10)

/-- Decimal string of a natural number (Python `str(n)` / `f"{n}"`). -/
def natChars (n : ℕ) : Str :=
  if n = 0 then ['0'] else ((natDigitsRev n n).map digitChar).reverse

/-- Python `f"{i:03d}"`: decimal representation left-padded with zeros to at
least three characters. -/
def fmt3 (n : ℕ) : Str :=
  let ds := natDigitsRev n n
  ((ds ++ List.replicate (3 - ds.length) 0).map digitChar).reverse

/-- Python `f"{x}"` on a float value of this program: sign, integer part,
`'.'`, fractional part with trailing zeros trimmed (at least one digit on
each side of the point). -/
def serNum (q : PyNum) : Str :=
  let n := q.mant.natAbs
  let ds := natDigitsRev n n
  let dsPad := ds ++ List.replicate (q.scale + 1 - ds.length) 0
  let frac := dsPad.take q.scale
  let intp := dsPad.drop q.scale
  let fracTrim := frac.dropWhile (· = 0)
  let fracStr := if fracTrim.isEmpty then ['0'] else (fracTrim.map digitChar).reverse
  let intStr := (intp.map digitChar).reverse
  (if q.mant < 0 then ['-'] else []) ++ intStr ++ ['.'] ++ fracStr

/-- Source line 204: characters the sanitizer keeps (`[^\w\-_\s]` is
replaced); `\w` taken over ASCII. -/
def allowedChar (c : Char) : Bool := c.isAlphanum || c = '-' || c = '_' || pyWs c

/-- One character of `re.sub(r'[^\w\-_\s]', '_', ·)`. -/
def replChar (c : Char) : Char := if allowedChar c then c else '_'

/-- `re.sub(r'\s+', '_', ·)`: every maximal whitespace run becomes one
underscore.  The flag records whether we are inside a run already
replaced. -/
def collapseWs : Bool → Str → Str
  | _, [] => []
  | inRun, c :: rest =>
    if pyWs c then
      if inRun then collapseWs true rest else '_' :: collapseWs true rest
    else c :: collapseWs false rest

/-- Source lines 204-205 (`create_dji_mission_kml`): sanitize the mission
name. -/
def clean_name (s : Str) : Str := collapseWs false (stripBoth (s.map replChar))

/-- Source lines 295-296 (`process_all_points`): sanitize the table
attribute for the filename; textually identical to `clean_name`. -/
def clean_attribute (s : Str) : Str := collapseWs false (stripBoth (s.map replChar))

/-- Case-insensitive literal match at the front of `s`; returns the rest
on success.  (Pattern literals are lowercase; models `re.IGNORECASE`.) -/
def ciStarts : Str → Str → Option Str
  | [], s => some s
  | _, [] => none
  | p :: ps, c :: cs => if p.toLower = c.toLower then ciStarts ps cs else none

/-- Backtracking alternatives for the greedy `[^>]*`: remaining inputs after
consuming a (maximal first) run of non-`>` characters. -/
def greedyRests (s : Str) : List Str :=
  (List.range ((s.takeWhile (fun c => !(c = '>'))).length + 1)).reverse.map (s.drop ·)

/-- Backtracking alternatives for the lazy `.*?` under `re.DOTALL`: shortest
consumption first. -/
def lazyRests (s : Str) : List Str :=
  (List.range (s.length + 1)).map (s.drop ·)

/-- Match the pattern `<tr[^>]*background[^>]*>.*?<td[^>]*>(.*?)</td>`
anchored at the start of `s` (with `re.DOTALL | re.IGNORECASE` and Python's
backtracking order); returns group 1. -/
def matchTrFrom (s : Str) : Option Str :=
  (ciStarts "<tr".data s).bind fun s1 =>
  (greedyRests s1).findSome? fun s2 =>
  (ciStarts "background".data s2).bind fun s3 =>
  (greedyRests s3).findSome? fun s4 =>
  (ciStarts ">".data s4).bind fun s5 =>
  (lazyRests s5).findSome? fun s6 =>
  (ciStarts "<td".data s6).bind fun s7 =>
  (greedyRests s7).findSome? fun s8 =>
  (ciStarts ">".data s8).bind fun s9 =>
  (List.range (s9.length + 1)).findSome? fun k =>
  (ciStarts "</td>".data (s9.drop k)).map fun _ => s9.take k

/-- `re.search` of the table pattern: leftmost match wins. -/
def reSearchTr (s : Str) : Option Str :=
  (List.range (s.length + 1)).findSome? fun i => matchTrFrom (s.drop i)

/-- `re.sub(r'<[^>]+>', '', ·)` with fuel (`stripTags s.length s` is the
total call: every step consumes at least one character). -/
def stripTags : ℕ → Str → Str
  | 0, s => s
  | _ + 1, [] => []
  | f + 1, c :: rest =>
    if c = '<' then
      let seg := rest.takeWhile (fun x => !(x = '>'))
      let rest' := rest.dropWhile (fun x => !(x = '>'))
      match seg, rest' with
      | _ :: _, '>' :: tail => stripTags f tail
      | _, _ => c :: stripTags f rest
    else c :: stripTags f rest

/-- Source lines 131-155: extract the first `<td>` cell of the first `<tr>`
row carrying a background-color marker; strip residual tags and whitespace;
empty results and failed matches collapse to `none` (never an exception,
mirroring the `try`/`except`). -/
def extract_html_table_attribute_from_text (html_text : Str) : Option Str :=
  if html_text.isEmpty then none
  else
    match reSearchTr html_text with
    | none => none
    | some g =>
      let a1 := stripBoth g
      let a2 := stripBoth (stripTags a1.length a1)
      if a2.isEmpty then none else some a2

/-- One XML element as seen through ElementTree lookups: whether its tag is
KML-namespace-qualified, and its `.text` (`none` for a missing text). -/
structure Elem where
  ns : Bool
  text : Option Str
deriving DecidableEq, Repr

/-- `root.find('.//kml:X', namespace)` followed by the namespace-less
fallback `root.find('.//X')`: first namespaced element in document order,
else first un-namespaced one. -/
def findElem (l : List Elem) : Option Elem :=
  match l.find? (fun e => e.ns) with
  | some e => some e
  | none => l.find? (fun e => !e.ns)

/-- A `<Placemark>` node, abstracted to the descendant elements the parser
looks up: its `coordinates`, `name` and `description` elements in document
order. -/
structure Placemark where
  coords : List Elem
  names : List Elem
  descs : List Elem
deriving DecidableEq, Repr

/-- Outcome of the shared inline coordinate-text logic (source lines 56-63
and 96-102): fewer than two comma-separated components (silent skip),
a `float()` failure (`ValueError`), or a parsed triple (elevation defaults
to `0.0`). -/
inductive CoordResult where
  | tooFew
  | floatFail
  | ok (lon lat alt : PyNum)
deriving DecidableEq, Repr

/-- `longitude, latitude, elevation` triple. -/
structure GeoPoint where
  lon : PyNum
  lat : PyNum
  alt : PyNum
deriving DecidableEq, Repr

/-- The inline coordinate parsing: strip, split on commas, require at least
two components, convert with `float()` (third component only when more than
two are present — later components are never touched). -/
def parseCoordText (t : Str) : CoordResult :=
  let comps := splitC (stripBoth t)
  if 2 ≤ comps.length then
    match pyFloat? (comps.getD 0 []), pyFloat? (comps.getD 1 []) with
    | some lon, some lat =>
      if 2 < comps.length then
        match pyFloat? (comps.getD 2 []) with
        | some alt => .ok lon lat alt
        | none => .floatFail
      else .ok lon lat ⟨0, 0⟩
    | _, _ => .floatFail
  else .tooFew

/-- Source lines 36-68 (`parse_kml_point`): single-point mode.  The file
argument is `none` when `ET.parse` raised (caught, yielding `None`).  Only
the document's first coordinates element (namespaced first) is consulted;
any failure — including a `float()` exception, caught by the `except` —
yields `none`. -/
def parse_kml_point (file : Option (List Elem)) : Option GeoPoint :=
  match file with
  | none => none
  | some doc =>
    match findElem doc with
    | none => none
    | some e =>
      match e.text with
      | none => none
      | some t =>
        if t.isEmpty then none
        else
          match parseCoordText t with
          | .ok lon lat alt => some ⟨lon, lat, alt⟩
          | _ => none

/-- One parsed placemark record (source lines 119-124). -/
structure PointRec where
  name : Str
  coordinates : GeoPoint
  description : Str
  table_attribute : Option Str
deriving DecidableEq, Repr

/-- Synthesized default name `f"Point_{i+1}"` for the marker at 0-based
enumeration index `i`. -/
def defaultName (i : ℕ) : Str := "Point_".data ++ natChars (i + 1)

/-- Coordinate outcome of one placemark: `none` when there is no
coordinates element or its text is missing/empty (the `if` guard fails). -/
def pmCoordResult (pm : Placemark) : Option CoordResult :=
  match findElem pm.coords with
  | none => none
  | some e =>
    match e.text with
    | none => none
    | some t => if t.isEmpty then none else some (parseCoordText t)

/-- Step outcome for one placemark in the `parse_all_kml_points` loop. -/
inductive PStep where
  | skip
  | fail
  | ok (r : PointRec)
deriving DecidableEq, Repr

/-- Body of the loop at source lines 89-124 for the placemark at enumeration
index `i`: silently skip on missing/short coordinates, abort the document on
a `float()` exception, otherwise build the record (name defaulting to
`Point_{i+1}`, description defaulting to `""`, label via the extractor). -/
def pointRecOf (i : ℕ) (pm : Placemark) : PStep :=
  match pmCoordResult pm with
  | none => .skip
  | some .tooFew => .skip
  | some .floatFail => .fail
  | some (.ok lon lat alt) =>
    let name :=
      match findElem pm.names with
      | some e =>
        match e.text with
        | some nt => if nt.isEmpty then defaultName i else nt
        | none => defaultName i
      | none => defaultName i
    let desc :=
      match findElem pm.descs with
      | some e =>
        match e.text with
        | some dt => if dt.isEmpty then [] else dt
        | none => []
      | none => []
    .ok ⟨name, ⟨lon, lat, alt⟩, desc, extract_html_table_attribute_from_text desc⟩

/-- The `for i, placemark in enumerate(placemarks)` loop.  A `.fail` step is
the uncaught `float()` exception: the `except` at the function boundary
returns the records accumulated so far, dropping the rest. -/
def parseAllGo : ℕ → List Placemark → List PointRec
  | _, [] => []
  | i, pm :: rest =>
    match pointRecOf i pm with
    | .skip => parseAllGo (i + 1) rest
    | .fail => []
    | .ok r => r :: parseAllGo (i + 1) rest

/-- Source lines 70-129 (`parse_all_kml_points`): `none` models a document
on which `ET.parse` raised (caught: zero points). -/
def parse_all_kml_points (d : Option (List Placemark)) : List PointRec :=
  match d with
  | none => []
  | some pms => parseAllGo 0 pms

/-- Source lines 157-170 (`get_base_point`): `none` argument is a missing
`base.kml` (`FileNotFoundError`); a `none` result of `parse_kml_point`
is the `ValueError`.  Both surface as `none` here and are fatal to the
run. -/
def get_base_point (file : Option (Option (List Elem))) : Option GeoPoint :=
  match file with
  | none => none
  | some f => parse_kml_point f

/-- One record of `destination_points` (source lines 187-194), restricted to
the fields the mission loop consumes. -/
structure DestRec where
  name : Str
  coordinates : GeoPoint
  table_attribute : Option Str
deriving DecidableEq, Repr

/-- Insert one file into a list sorted lexicographically by filename,
keeping earlier equal names first (Python's stable `sorted`). -/
def insertSorted (x : String × Option (List Placemark)) :
    List (String × Option (List Placemark)) → List (String × Option (List Placemark))
  | [] => [x]
  | y :: ys => if x.1 < y.1 then x :: y :: ys else y :: insertSorted x ys

/-- `sorted(self.input_points_kml_dir.glob("*.kml"))`. -/
def sortFiles (l : List (String × Option (List Placemark))) :
    List (String × Option (List Placemark)) :=
  l.foldl (fun acc x => insertSorted x acc) []

/-- Source lines 172-196 (`get_destination_points`): `none` models a missing
input directory (warning, zero points); each file is `(name, parsed-or-not)`
and contributes its parsed placemark records in sorted filename order. -/
def get_destination_points (dir : Option (List (String × Option (List Placemark)))) :
    List DestRec :=
  match dir with
  | none => []
  | some files =>
    ((sortFiles files).map fun f =>
      (parse_all_kml_points f.2).map fun pr =>
        ({ name := pr.name, coordinates := pr.coordinates,
           table_attribute := pr.table_attribute } : DestRec)).flatten

/-- Source lines 288-299: the output filename for 1-based run position `i`
and the point's extracted table attribute (Python truthiness: `None` and
`""` both omit the label segment). -/
def buildFilename (i : ℕ) (attr : Option Str) : Str :=
  let parts : List Str :=
    match attr with
    | some a => if a.isEmpty then [fmt3 i] else [fmt3 i, clean_attribute a]
    | none => [fmt3 i]
  List.intercalate ['_'] parts ++ ".kml".data

/-- Template text of the f-string at source lines 208-252 up to the first
`{clean_name}`. -/
def tplA : Str := ("<?xml version=\"1.0\" encoding=\"UTF-8\"?>\n<kml xmlns=\"http://www.opengis.net/kml/2.2\" xmlns:gx=\"http://www.google.com/kml/ext/2.2\" xmlns:kml=\"http://www.opengis.net/kml/2.2\" xmlns:atom=\"http://www.w3.org/2005/Atom\">\n<Document>\n\t<name>").data

/-- Template text between the two `{clean_name}` interpolations. -/
def tplB : Str := (".kml</name>\n\t<StyleMap id=\"m_ylw-pushpin\">\n\t\t<Pair>\n\t\t\t<key>normal</key>\n\t\t\t<styleUrl>#s_ylw-pushpin</styleUrl>\n\t\t</Pair>\n\t\t<Pair>\n\t\t\t<key>highlight</key>\n\t\t\t<styleUrl>#s_ylw-pushpin_hl</styleUrl>\n\t\t</Pair>\n\t</StyleMap>\n\t<Style id=\"s_ylw-pushpin\">\n\t\t<IconStyle>\n\t\t\t<scale>1.1</scale>\n\t\t\t<Icon>\n\t\t\t\t<href>http://maps.google.com/mapfiles/kml/pushpin/ylw-pushpin.png</href>\n\t\t\t</Icon>\n\t\t\t<hotSpot x=\"20\" y=\"2\" xunits=\"pixels\" yunits=\"pixels\"/>\n\t\t</IconStyle>\n\t</Style>\n\t<Style id=\"s_ylw-pushpin_hl\">\n\t\t<IconStyle>\n\t\t\t<scale>1.3</scale>\n\t\t\t<Icon>\n\t\t\t\t<href>http://maps.google.com/mapfiles/kml/pushpin/ylw-pushpin.png</href>\n\t\t\t</Icon>\n\t\t\t<hotSpot x=\"20\" y=\"2\" xunits=\"pixels\" yunits=\"pixels\"/>\n\t\t</IconStyle>\n\t</Style>\n\t<Placemark>\n\t\t<name>").data

/-- Template text between the second `{clean_name}` and the first
coordinate interpolation. -/
def tplC : Str := ("</name>\n\t\t<styleUrl>#m_ylw-pushpin</styleUrl>\n\t\t<LineString>\n\t\t\t<tessellate>1</tessellate>\n\t\t\t<coordinates>\n\t\t\t\t").data

/-- Template text after the last coordinate interpolation. -/
def tplD : Str := (" \n\t\t\t</coordinates>\n\t\t</LineString>\n\t\t<atom:link rel=\"app\" href=\"https://www.google.com/earth/about/versions/#earth-pro\" title=\"Google Earth Pro 7.3.6.10201\"></atom:link>\n\t</Placemark>\n</Document>\n</kml>").data

/-- `{p[0]},{p[1]},{p[2]}`: one vertex serialized. -/
def serGeo (g : GeoPoint) : Str :=
  serNum g.lon ++ [','] ++ serNum g.lat ++ [','] ++ serNum g.alt

/-- Source lines 198-254 (`create_dji_mission_kml`): the fixed template with
the sanitized mission name interpolated twice and the two vertices
interpolated into the single `<LineString>`. -/
def create_dji_mission_kml (base target : GeoPoint) (mission_name : Str) : Str :=
  tplA ++ clean_name mission_name ++ tplB ++ clean_name mission_name ++ tplC ++
    serGeo base ++ [' '] ++ serGeo target ++ tplD

/-- The `for i, point_data in enumerate(destination_points, 1)` loop at
source lines 281-306: the ordered `(filename, content)` writes. -/
def missionWrites (bp : GeoPoint) (dps : List DestRec) : List (Str × Str) :=
  dps.enum.map fun p =>
    (buildFilename (p.1 + 1) p.2.table_attribute,
     create_dji_mission_kml bp p.2.coordinates p.2.name)

/-- Observable outcome of a run: process exit code and ordered file
writes. -/
structure RunResult where
  exit : ℕ
  writes : List (Str × Str)
deriving DecidableEq, Repr

/-- Source lines 256-312 (`process_all_points`): a failure to resolve the
base point is the only exception reachable in the model; it is caught at the
function boundary and becomes `sys.exit(1)` with no file written.  An empty
destination set returns early with no writes. -/
def process_all_points (baseFile : Option (Option (List Elem)))
    (destDir : Option (List (String × Option (List Placemark)))) : RunResult :=
  match get_base_point baseFile with
  | none => ⟨1, []⟩
  | some bp =>
    let dps := get_destination_points destDir
    if dps.isEmpty then ⟨0, []⟩ else ⟨0, missionWrites bp dps⟩

/-- Count of (possibly overlapping) occurrences of the nonempty pattern `p`
starting at each position of `s`. -/
def countOcc (p : Str) : Str → ℕ
  | [] => 0
  | c :: rest => (if p.isPrefixOf (c :: rest) then 1 else 0) + countOcc p rest

/-- Value of a little-endian decimal digit list (proof helper for the
injectivity of zero-padded formatting). -/
def unDigits : List ℕ → ℕ
  | [] => 0
  | d :: r => d + 10 * unDigits r

/-- The optional label segment of a filename, as the spec describes it:
present exactly when a (truthy) label was extracted. -/
def labelSeg (a : Option Str) : Str :=
  match a with
  | none => []
  | some s => if s.isEmpty then [] else '_' :: clean_attribute s

/-- Concrete marker: coordinate text with a single component. -/
def pmBadOne : Placemark := ⟨[⟨true, some "7".data⟩], [], []⟩

/-- Concrete unnamed marker with coordinate text `"2,3"`. -/
def pmPlain23 : Placemark := ⟨[⟨true, some "2,3".data⟩], [], []⟩

/-- Concrete marker with four components, the fourth not numeric. -/
def pmFourComp : Placemark := ⟨[⟨true, some "1,2,3,x".data⟩], [], []⟩

/-- Concrete marker whose second coordinate component is not numeric. -/
def pmFloatFail : Placemark := ⟨[⟨true, some "1,y".data⟩], [], []⟩

/-- Concrete description carrying a background-color header row. -/
def descTower : Str := "<tr style=\"background:#D1D1D1\"><td>Tower A</td></tr>".data

/-- Concrete annotated target marker named `A` at `(1,2)`. -/
def pmTower1 : Placemark :=
  ⟨[⟨true, some "1,2".data⟩], [⟨true, some "A".data⟩], [⟨true, some descTower⟩]⟩

/-- Concrete annotated target marker named `B` at `(3,4)`. -/
def pmTower2 : Placemark :=
  ⟨[⟨true, some "3,4".data⟩], [⟨true, some "B".data⟩], [⟨true, some descTower⟩]⟩

/-- Concrete single-point document whose first coordinates element is
unusable while the second parses. -/
def badFirstDoc : List Elem := [⟨true, some "1".data⟩, ⟨true, some "2,3".data⟩]

theorem unDigits_natDigitsRev : ∀ (fuel n : ℕ), n ≤ fuel → unDigits (natDigitsRev fuel n) = n := by
  intro fuel
  induction fuel with
  | zero =>
    intro n h
    have h0 : n = 0 := Nat.le_zero.mp h
    subst h0; rfl
  | succ f ih =>
    intro n h
    by_cases h0 : n = 0
    · subst h0; simp [natDigitsRev, unDigits]
    · have hlt : n / 10 < n := Nat.div_lt_self (Nat.pos_of_ne_zero h0) (by decide)
      have hd : n / 10 ≤ f := by omega
      simp only [natDigitsRev, if_neg h0, unDigits]
      rw [ih _ hd]
      omega

theorem natDigitsRev_lt : ∀ (fuel n d : ℕ), d ∈ natDigitsRev fuel n → d < 10 := by
  intro fuel
  induction fuel with
  | zero => intro n d h; simp [natDigitsRev] at h
  | succ f ih =>
    intro n d h
    by_cases h0 : n = 0
    · subst h0; simp [natDigitsRev] at h
    · simp only [natDigitsRev, if_neg h0, List.mem_cons] at h
      rcases h with h | h
      · subst h; exact Nat.mod_lt _ (by decide)
      · exact ih _ _ h

theorem unDigits_append_zeros : ∀ (l : List ℕ) (k : ℕ), unDigits (l ++ List.replicate k 0) = unDigits l := by
  intro l
  induction l with
  | nil =>
    intro k
    induction k with
    | zero => rfl
    | succ k ihk => simpa [List.replicate, unDigits] using ihk
  | cons d r ih => intro k; simp [unDigits, ih]

theorem charVal_digitChar (d : ℕ) : (digitChar d).toNat - 48 = d % 10 := by
  have h : d % 10 < 10 := Nat.mod_lt _ (by decide)
  have key : ∀ r < 10, (("0123456789".data.getD r '0').toNat - 48) = r := by decide
  exact key _ h

theorem unfmt_fmt3 (n : ℕ) : unDigits (((fmt3 n).reverse).map (fun c => c.toNat - 48)) = n := by
  unfold fmt3
  rw [List.reverse_reverse, List.map_map]
  have hcongr : ∀ d ∈ natDigitsRev n n ++ List.replicate (3 - (natDigitsRev n n).length) 0,
      ((fun c => c.toNat - 48) ∘ digitChar) d = d := by
    intro d hd
    have hlt : d < 10 := by
      rcases List.mem_append.mp hd with h | h
      · exact natDigitsRev_lt _ _ _ h
      · have := List.eq_of_mem_replicate h; omega
    show (digitChar d).toNat - 48 = d
    rw [charVal_digitChar, Nat.mod_eq_of_lt hlt]
  rw [List.map_congr_left hcongr, List.map_id', unDigits_append_zeros,
    unDigits_natDigitsRev n n (Nat.le_refl n)]

theorem fmt3_inj {m n : ℕ} (h : fmt3 m = fmt3 n) : m = n := by
  have hm := unfmt_fmt3 m
  rw [h, unfmt_fmt3 n] at hm
  exact hm.symm

theorem appendRightCancel {a b t : Str} (h : a ++ t = b ++ t) : a = b := by
  have h1 := congrArg List.reverse h
  rw [List.reverse_append, List.reverse_append] at h1
  have h2 := List.append_cancel_left h1
  have h3 := congrArg List.reverse h2
  rwa [List.reverse_reverse, List.reverse_reverse] at h3

theorem countOcc_append_nolt {p : Str} (v r : Str) (h0 : p.head? = some '<')
    (hv : '<' ∉ v) : countOcc p (v ++ r) = countOcc p r := by
  induction v with
  | nil => rfl
  | cons c cs ih =>
    have hc : c ≠ '<' := fun e => hv (e ▸ List.mem_cons_self c cs)
    have hnp : p.isPrefixOf (c :: (cs ++ r)) = false := by
      cases p with
      | nil => simp at h0
      | cons q qs =>
        have hq : q = '<' := by simpa using h0
        subst hq
        simp [List.isPrefixOf, Ne.symm hc]
    have hcs : '<' ∉ cs := fun hm => hv (List.mem_cons_of_mem _ hm)
    simpa [countOcc, hnp] using ih hcs

theorem countOcc_append_const {p : Str} (tpl r : Str)
    (h : ∀ n < p.length, 0 < n → ¬ (p.take n <:+ tpl)) :
    countOcc p (tpl ++ r) = countOcc p tpl + countOcc p r := by
  induction tpl with
  | nil => simp [countOcc]
  | cons c cs ih =>
    have hsub : ∀ n < p.length, 0 < n → ¬ (p.take n <:+ cs) := fun n hn hp hsuf =>
      h n hn hp (hsuf.trans (List.suffix_cons c cs))
    have key : p.isPrefixOf (c :: (cs ++ r)) = p.isPrefixOf (c :: cs) := by
      rw [Bool.eq_iff_iff, List.isPrefixOf_iff_prefix, List.isPrefixOf_iff_prefix]
      constructor
      · intro hp
        by_cases hl : p.length ≤ (c :: cs).length
        · exact List.prefix_of_prefix_length_le hp (List.prefix_append (c :: cs) r) hl
        · push_neg at hl
          exfalso
          have h2 : (c :: cs) <+: p :=
            List.prefix_of_prefix_length_le (List.prefix_append (c :: cs) r) hp (Nat.le_of_lt hl)
          have h1 : c :: cs = p.take (c :: cs).length := List.prefix_iff_eq_take.mp h2
          exact h (c :: cs).length hl (Nat.succ_pos _) (by rw [← h1])
      · intro hp
        exact hp.trans (List.prefix_append (c :: cs) r)
    simp only [List.cons_append, countOcc, List.append_eq]
    rw [ih hsub]
    simp only [key]
    exact (Nat.add_assoc _ _ _).symm

theorem mem_collapseWs : ∀ (b : Bool) (s : Str) (c : Char), c ∈ collapseWs b s → c = '_' ∨ c ∈ s := by
  intro b s
  induction s generalizing b with
  | nil => intro c h; simp [collapseWs] at h
  | cons x xs ih =>
    intro c h
    simp only [collapseWs] at h
    by_cases hw : pyWs x
    · rw [if_pos hw] at h
      cases b with
      | true =>
        rcases ih true c h with h1 | h1
        · exact Or.inl h1
        · exact Or.inr (List.mem_cons_of_mem _ h1)
      | false =>
        simp only [Bool.false_eq_true, if_neg (by simp : ¬ (False : Prop))] at h
        rcases List.mem_cons.mp h with h1 | h1
        · exact Or.inl h1
        · rcases ih true c h1 with h2 | h2
          · exact Or.inl h2
          · exact Or.inr (List.mem_cons_of_mem _ h2)
    · rw [if_neg hw] at h
      rcases List.mem_cons.mp h with h1 | h1
      · exact Or.inr (h1 ▸ List.mem_cons_self x xs)
      · rcases ih false c h1 with h2 | h2
        · exact Or.inl h2
        · exact Or.inr (List.mem_cons_of_mem _ h2)

theorem mem_stripL {c : Char} {s : Str} (h : c ∈ stripL s) : c ∈ s :=
  (List.dropWhile_sublist pyWs).mem h

theorem mem_stripR {c : Char} {s : Str} (h : c ∈ stripR s) : c ∈ s := by
  unfold stripR at h
  rw [List.mem_reverse] at h
  have := (List.dropWhile_sublist pyWs).mem h
  rwa [List.mem_reverse] at this

theorem mem_stripBoth {c : Char} {s : Str} (h : c ∈ stripBoth s) : c ∈ s :=
  mem_stripL (mem_stripR h)

theorem allowedChar_of_mem_map_replChar {c : Char} {s : Str} (h : c ∈ s.map replChar) :
    allowedChar c = true := by
  rcases List.mem_map.mp h with ⟨x, _, hx⟩
  subst hx
  unfold replChar
  by_cases ha : allowedChar x
  · rwa [if_pos ha]
  · rw [if_neg ha]; decide

theorem lt_not_mem_clean_name (s : Str) : '<' ∉ clean_name s := by
  intro h
  rcases mem_collapseWs false _ _ h with h1 | h1
  · exact absurd h1 (by decide)
  · have h2 := mem_stripBoth h1
    have h3 := allowedChar_of_mem_map_replChar h2
    exact absurd h3 (by decide)

theorem digitChar_ne_lt (d : ℕ) : digitChar d ≠ '<' := by
  have h : d % 10 < 10 := Nat.mod_lt _ (by decide)
  have key : ∀ r < 10, "0123456789".data.getD r '0' ≠ '<' := by decide
  exact key _ h

theorem lt_not_mem_serNum (q : PyNum) : '<' ∉ serNum q := by
  intro h
  unfold serNum at h
  simp only [List.mem_append] at h
  rcases h with ((h | h) | h) | h
  · split at h <;> simp_all
  · rw [List.mem_reverse] at h
    rcases List.mem_map.mp h with ⟨d, _, hd⟩
    exact digitChar_ne_lt d hd
  · simp at h
  · split at h
    · simp at h
    · rw [List.mem_reverse] at h
      rcases List.mem_map.mp h with ⟨d, _, hd⟩
      exact digitChar_ne_lt d hd

theorem lt_not_mem_serGeo (g : GeoPoint) : '<' ∉ serGeo g := by
  intro h
  unfold serGeo at h
  simp only [List.mem_append] at h
  rcases h with (((h | h) | h) | h) | h
  · exact lt_not_mem_serNum _ h
  · simp at h
  · exact lt_not_mem_serNum _ h
  · simp at h
  · exact lt_not_mem_serNum _ h

theorem stripL_eq_self {s : Str} (h : ∀ c ∈ s, pyWs c = false) : stripL s = s := by
  cases s with
  | nil => rfl
  | cons c cs =>
    exact List.dropWhile_cons_of_neg (by simp [h c (List.mem_cons_self c cs)])

theorem stripR_eq_self {s : Str} (h : ∀ c ∈ s, pyWs c = false) : stripR s = s := by
  unfold stripR
  rw [show s.reverse.dropWhile pyWs = s.reverse from
    stripL_eq_self (fun c hc => h c (List.mem_reverse.mp hc)), List.reverse_reverse]

theorem stripBoth_eq_self {s : Str} (h : ∀ c ∈ s, pyWs c = false) : stripBoth s = s := by
  unfold stripBoth
  rw [stripL_eq_self h, stripR_eq_self h]

theorem splitC_ne_nil : ∀ s : Str, splitC s ≠ [] := by
  intro s
  induction s with
  | nil => simp [splitC]
  | cons c cs ih =>
    simp only [splitC]
    cases h : splitC cs with
    | nil => exact absurd h ih
    | cons t ts => by_cases hc : c = ',' <;> simp [hc]

theorem splitC_no_comma {s : Str} (h : ',' ∉ s) : splitC s = [s] := by
  induction s with
  | nil => rfl
  | cons c cs ih =>
    have hc : c ≠ ',' := fun e => h (e ▸ List.mem_cons_self c cs)
    have hcs : ',' ∉ cs := fun hm => h (List.mem_cons_of_mem _ hm)
    simp only [splitC, ih hcs]
    simp [hc]

theorem splitC_append {a b : Str} (h : ',' ∉ a) : splitC (a ++ ',' :: b) = a :: splitC b := by
  induction a with
  | nil =>
    simp only [List.nil_append, splitC]
    cases hb : splitC b with
    | nil => exact absurd hb (splitC_ne_nil b)
    | cons t ts => simp
  | cons x xs ih =>
    have hx : x ≠ ',' := fun e => h (e ▸ List.mem_cons_self x xs)
    have hxs : ',' ∉ xs := fun hm => h (List.mem_cons_of_mem _ hm)
    rw [List.cons_append, splitC, ih hxs]
    simp [hx]

theorem pointRecOf_eq_fail_iff {i : ℕ} {pm : Placemark} :
    pointRecOf i pm = .fail ↔ pmCoordResult pm = some .floatFail := by
  unfold pointRecOf
  cases h : pmCoordResult pm with
  | none => simp
  | some cr => cases cr <;> simp

theorem parseAllGo_append_clean : ∀ (i : ℕ) (pms r : List Placemark),
    (∀ pm ∈ pms, pmCoordResult pm ≠ some .floatFail) →
    parseAllGo i (pms ++ r) = parseAllGo i pms ++ parseAllGo (i + pms.length) r := by
  intro i pms
  induction pms generalizing i with
  | nil => intro r _; simp [parseAllGo]
  | cons pm rest ih =>
    intro r h
    have h1 : pmCoordResult pm ≠ some .floatFail := h pm (List.mem_cons_self _ _)
    have h2 : ∀ pm' ∈ rest, pmCoordResult pm' ≠ some .floatFail := fun pm' hm =>
      h pm' (List.mem_cons_of_mem _ hm)
    have hidx : i + 1 + rest.length = i + (pm :: rest).length := by
      simp [List.length_cons]; omega
    rw [List.cons_append]
    cases hp : pointRecOf i pm with
    | fail => exact absurd (pointRecOf_eq_fail_iff.mp hp) h1
    | skip =>
      rw [show parseAllGo i (pm :: (rest ++ r)) = parseAllGo (i + 1) (rest ++ r) from by
            simp [parseAllGo, hp],
          show parseAllGo i (pm :: rest) = parseAllGo (i + 1) rest from by
            simp [parseAllGo, hp],
          ih (i + 1) r h2, hidx]
    | ok rec =>
      rw [show parseAllGo i (pm :: (rest ++ r)) = rec :: parseAllGo (i + 1) (rest ++ r) from by
            simp [parseAllGo, hp],
          show parseAllGo i (pm :: rest) = rec :: parseAllGo (i + 1) rest from by
            simp [parseAllGo, hp],
          ih (i + 1) r h2, hidx, List.cons_append]

theorem findElem_mem {l : List Elem} {e : Elem} (h : findElem l = some e) : e ∈ l := by
  unfold findElem at h
  cases h1 : l.find? (fun e => e.ns) with
  | some e' =>
    rw [h1] at h
    cases h
    exact List.mem_of_find?_eq_some h1
  | none =>
    rw [h1] at h
    exact List.mem_of_find?_eq_some h

theorem buildFilename_eq (i : ℕ) (a : Option Str) :
    buildFilename i a = fmt3 i ++ labelSeg a ++ ".kml".data := by
  cases a with
  | none => simp [buildFilename, labelSeg, List.intercalate]
  | some s =>
    by_cases hs : s.isEmpty
    · simp [buildFilename, labelSeg, hs, List.intercalate]
    · simp [buildFilename, labelSeg, hs, List.intercalate, List.intersperse]

/-- C1: the claim asserts that two distinct target points whose labels
sanitize identically produce *identical* filenames.  On a concrete run with
two such targets the generated filenames are `001_Tower_A.kml` and
`002_Tower_A.kml` — not identical: the 3-digit run-position prefix differs. -/
theorem C1_counterexample :
    (get_destination_points (some [("a.kml", some [pmTower1, pmTower2])])).map
        DestRec.table_attribute = [some "Tower A".data, some "Tower A".data] ∧
    ((process_all_points (some (some [⟨true, some "0,0".data⟩]))
        (some [("a.kml", some [pmTower1, pmTower2])])).writes.map Prod.fst) =
      ["001_Tower_A.kml".data, "002_Tower_A.kml".data] ∧
    "001_Tower_A.kml".data ≠ "002_Tower_A.kml".data := by
  refine ⟨by decide, by decide, by decide⟩

/-- C1 (amended): two target points at distinct 1-based run positions always
receive distinct filenames, even when their sanitized labels are identical,
because the zero-padded sequence prefix is injective in the position. -/
theorem C1_amended (i j : ℕ) (a : Option Str) (hij : i ≠ j) :
    buildFilename i a ≠ buildFilename j a := by
  intro h
  rw [buildFilename_eq, buildFilename_eq] at h
  exact hij (fmt3_inj (appendRightCancel (appendRightCancel h)))

theorem C1_amended_witness :
    buildFilename 1 (some "Tower A".data) ≠ buildFilename 2 (some "Tower A".data) :=
  C1_amended 1 2 (some "Tower A".data) (by decide)

/-- C2: the claim asserts that a marker with fewer than two coordinate
components does not increment the default-name ordinal of subsequent
markers.  Concretely, parsing a document whose first marker has the single
component `"7"` and whose second marker is unnamed yields one record named
`Point_2`—not `Point_1` as the claim would require: the skipped marker does
advance the ordinal. -/
theorem C2_counterexample :
    (parse_all_kml_points (some [pmBadOne, pmPlain23])).map PointRec.name =
      ["Point_2".data] ∧ "Point_2".data ≠ "Point_1".data := by
  refine ⟨by decide, by decide⟩

/-- C2 (amended): a marker with fewer than two comma-separated coordinate
components is excluded from the output sequence, but the enumeration
continues at the next ordinal — i.e. its presence *does* increment the
default-name ordinal: an unnamed marker at 0-based document position `i`
is named `Point_{i+1}` regardless of how many earlier markers were
skipped. -/
theorem C2_amended :
    (∀ (i : ℕ) (pm : Placemark) (rest : List Placemark),
       pmCoordResult pm = some .tooFew →
       parseAllGo i (pm :: rest) = parseAllGo (i + 1) rest) ∧
    (∀ (i : ℕ) (pm : Placemark) (r : PointRec),
       findElem pm.names = none → pointRecOf i pm = .ok r →
       r.name = "Point_".data ++ natChars (i + 1)) := by
  constructor
  · intro i pm rest h
    simp [parseAllGo, pointRecOf, h]
  · intro i pm r hn h
    unfold pointRecOf at h
    cases hcr : pmCoordResult pm with
    | none => rw [hcr] at h; cases h
    | some cr =>
      rw [hcr] at h
      cases cr with
      | tooFew => cases h
      | floatFail => cases h
      | ok lon lat alt =>
        rw [hn] at h
        cases h
        rfl

theorem C2_amended_witness :
    parseAllGo 0 [pmBadOne, pmPlain23] = parseAllGo 1 [pmPlain23] ∧
    (⟨"Point_2".data, ⟨⟨2, 0⟩, ⟨3, 0⟩, ⟨0, 0⟩⟩, [], none⟩ : PointRec).name =
      "Point_".data ++ natChars 2 :=
  ⟨C2_amended.1 0 pmBadOne [pmPlain23] (by decide),
   C2_amended.2 1 pmPlain23 ⟨"Point_2".data, ⟨⟨2, 0⟩, ⟨3, 0⟩, ⟨0, 0⟩⟩, [], none⟩
     (by decide) (by decide)⟩

/-- C3: sanitizing `"Tower #3 (north)"` — non-allowed characters replaced by
underscores first, then whitespace runs collapsed to single underscores
after trimming — yields exactly `"Tower__3__north_"`; and the sanitizer used
for display names inside the document is extensionally the one used for
filename labels. -/
theorem C3_sanitize :
    clean_name "Tower #3 (north)".data = "Tower__3__north_".data ∧
    ∀ s : Str, clean_name s = clean_attribute s := by
  refine ⟨by decide, fun s => rfl⟩

/-- C4: for comma- and whitespace-free numeric tokens, two-component
coordinate text `"lon,lat"` parses with elevation defaulted to `0.0`
(`⟨0,0⟩`), and three-component text `"lon,lat,alt"` parses with exactly the
given elevation value. -/
theorem C4_elevation (a b c : Str) (va vb vc : PyNum)
    (ha : pyFloat? a = some va) (hb : pyFloat? b = some vb) (hc : pyFloat? c = some vc)
    (hna : ∀ x ∈ a, pyWs x = false ∧ x ≠ ',')
    (hnb : ∀ x ∈ b, pyWs x = false ∧ x ≠ ',')
    (hnc : ∀ x ∈ c, pyWs x = false ∧ x ≠ ',') :
    parseCoordText (a ++ ',' :: b) = .ok va vb ⟨0, 0⟩ ∧
    parseCoordText (a ++ ',' :: (b ++ ',' :: c)) = .ok va vb vc := by
  have hca : ',' ∉ a := fun hm => (hna ',' hm).2 rfl
  have hcb : ',' ∉ b := fun hm => (hnb ',' hm).2 rfl
  have hcc : ',' ∉ c := fun hm => (hnc ',' hm).2 rfl
  constructor
  · have hws : ∀ x ∈ a ++ ',' :: b, pyWs x = false := by
      intro x hx
      rcases List.mem_append.mp hx with h | h
      · exact (hna x h).1
      · rcases List.mem_cons.mp h with h | h
        · subst h; decide
        · exact (hnb x h).1
    have hsplit : splitC (a ++ ',' :: b) = [a, b] := by
      rw [splitC_append hca, splitC_no_comma hcb]
    unfold parseCoordText
    rw [stripBoth_eq_self hws, hsplit]
    simp [ha, hb]
  · have hws : ∀ x ∈ a ++ ',' :: (b ++ ',' :: c), pyWs x = false := by
      intro x hx
      rcases List.mem_append.mp hx with h | h
      · exact (hna x h).1
      · rcases List.mem_cons.mp h with h | h
        · subst h; decide
        · rcases List.mem_append.mp h with h | h
          · exact (hnb x h).1
          · rcases List.mem_cons.mp h with h | h
            · subst h; decide
            · exact (hnc x h).1
    have hsplit : splitC (a ++ ',' :: (b ++ ',' :: c)) = [a, b, c] := by
      rw [splitC_append hca, splitC_append hcb, splitC_no_comma hcc]
    unfold parseCoordText
    rw [stripBoth_eq_self hws, hsplit]
    simp [ha, hb, hc]

theorem C4_elevation_witness :
    parseCoordText ("2".data ++ ',' :: "3".data) = .ok ⟨2, 0⟩ ⟨3, 0⟩ ⟨0, 0⟩ ∧
    parseCoordText ("2".data ++ ',' :: ("3".data ++ ',' :: "10".data)) =
      .ok ⟨2, 0⟩ ⟨3, 0⟩ ⟨10, 0⟩ :=
  C4_elevation "2".data "3".data "10".data ⟨2, 0⟩ ⟨3, 0⟩ ⟨10, 0⟩
    (by decide) (by decide) (by decide) (by decide) (by decide) (by decide)

/-- C5: the claim asserts single-point mode returns the first *successfully
parsed* point.  On a document whose first coordinates element holds the
single component `"1"` and whose second holds `"2,3"`, the code consults
only the first element and fails, even though a later node parses to
`(2,3,0)`. -/
theorem C5_counterexample :
    parse_kml_point (some badFirstDoc) = none ∧
    parseCoordText "2,3".data = .ok ⟨2, 0⟩ ⟨3, 0⟩ ⟨0, 0⟩ ∧
    parse_kml_point (some badFirstDoc) ≠ some ⟨⟨2, 0⟩, ⟨3, 0⟩, ⟨0, 0⟩⟩ := by
  refine ⟨by decide, by decide, by decide⟩

/-- C5 (amended): single-point mode consults only the document's *first*
coordinates element (namespaced elements searched before un-namespaced):
any successful result comes from that element's text, and if no element of
the document has text with at least two usable coordinate components the
result is failure (`none`) — names and descriptions are never consulted. -/
theorem C5_amended (doc : List Elem) :
    (∀ lon lat alt, parse_kml_point (some doc) = some ⟨lon, lat, alt⟩ →
       ∃ e, findElem doc = some e ∧
         ∃ t, e.text = some t ∧ parseCoordText t = .ok lon lat alt) ∧
    ((∀ e ∈ doc, ∀ t, e.text = some t →
        ∀ lon lat alt, parseCoordText t ≠ .ok lon lat alt) →
      parse_kml_point (some doc) = none) := by
  constructor
  · intro lon lat alt h
    simp only [parse_kml_point] at h
    split at h
    · cases h
    next e hf =>
      split at h
      · cases h
      next t ht =>
        split at h
        · cases h
        next he =>
          split at h
          next l la al hcr =>
            simp only [Option.some.injEq, GeoPoint.mk.injEq] at h
            obtain ⟨h1, h2, h3⟩ := h
            subst h1; subst h2; subst h3
            exact ⟨e, hf, t, ht, hcr⟩
          next x hx => cases h
  · intro hall
    simp only [parse_kml_point]
    split
    · rfl
    next e hf =>
      have hmem := findElem_mem hf
      split
      · rfl
      next t ht =>
        split
        · rfl
        next he =>
          split
          next l la al hcr => exact absurd hcr (hall e hmem t ht l la al)
          next x hx => rfl

theorem C5_amended_witness :
    ∃ e, findElem [(⟨true, some "2,3".data⟩ : Elem)] = some e ∧
      ∃ t, e.text = some t ∧ parseCoordText t = .ok ⟨2, 0⟩ ⟨3, 0⟩ ⟨0, 0⟩ :=
  (C5_amended [⟨true, some "2,3".data⟩]).1 ⟨2, 0⟩ ⟨3, 0⟩ ⟨0, 0⟩ (by decide)

/-- C6: the attribute extractor is total and never yields the empty string:
an empty annotation yields absence, a failed pattern search yields absence,
and a successful match whose cell text strips to empty also yields absence —
the result is `none` in every non-productive case, never `some ""`. -/
theorem C6_absence (s : Str) :
    (s = [] → extract_html_table_attribute_from_text s = none) ∧
    (reSearchTr s = none → extract_html_table_attribute_from_text s = none) ∧
    extract_html_table_attribute_from_text s ≠ some [] := by
  refine ⟨?_, ?_, ?_⟩
  · intro h; subst h; rfl
  · intro h
    unfold extract_html_table_attribute_from_text
    by_cases he : s.isEmpty
    · rw [if_pos he]
    · rw [if_neg he, h]
  · unfold extract_html_table_attribute_from_text
    by_cases he : s.isEmpty
    · rw [if_pos he]; simp
    · rw [if_neg he]
      cases hm : reSearchTr s with
      | none => simp
      | some g =>
        simp only
        by_cases h2 : (stripBoth (stripTags (stripBoth g).length (stripBoth g))).isEmpty
        · simp [h2]
        · simp only [h2, if_false, Bool.false_eq_true]
          intro heq
          have := Option.some.inj heq
          rw [this] at h2
          exact h2 rfl

theorem C6_absence_witness :
    extract_html_table_attribute_from_text "x".data = none :=
  (C6_absence "x".data).2.1 (by decide)

/-- C7: every output filename is the zero-padded 3-digit 1-based position of
its point — position taken in the flattened `destination_points` sequence of
the whole run, not per input document — followed by `_<sanitized label>`
exactly when a (truthy) label was extracted, followed by `.kml`; and the
writes of a run with a resolvable base point are exactly this numbered
sequence. -/
theorem C7_filename :
    (∀ (i : ℕ) (a : Option Str),
       buildFilename i a = fmt3 i ++ labelSeg a ++ ".kml".data) ∧
    (∀ (bp : GeoPoint) (dps : List DestRec),
       (missionWrites bp dps).map Prod.fst =
         dps.enum.map fun p => fmt3 (p.1 + 1) ++ labelSeg p.2.table_attribute ++ ".kml".data) ∧
    (∀ bf dests g, get_base_point bf = some g →
       (process_all_points bf dests).writes = missionWrites g (get_destination_points dests)) := by
  refine ⟨buildFilename_eq, ?_, ?_⟩
  · intro bp dps
    unfold missionWrites
    rw [List.map_map]
    exact List.map_congr_left fun p _ => buildFilename_eq (p.1 + 1) p.2.table_attribute
  · intro bf dests g h
    simp only [process_all_points, h]
    by_cases hd : (get_destination_points dests).isEmpty
    · have hnil : get_destination_points dests = [] := by simpa using hd
      simp [hd, hnil, missionWrites]
    · simp [hd]

theorem C7_filename_witness :
    (process_all_points (some (some [⟨true, some "0,0".data⟩])) none).writes =
      missionWrites ⟨⟨0, 0⟩, ⟨0, 0⟩, ⟨0, 0⟩⟩ (get_destination_points none) :=
  C7_filename.2.2 (some (some [⟨true, some "0,0".data⟩])) none
    ⟨⟨0, 0⟩, ⟨0, 0⟩, ⟨0, 0⟩⟩ (by decide)

/-- C8: if the base document is missing (`none`), unreadable (`some none`),
or its first coordinates node yields fewer than two usable components
(`parse_kml_point` fails), the run exits with code 1 and the list of writes
is empty — no output file is written. -/
theorem C8_fatal (bf : Option (Option (List Elem)))
    (dests : Option (List (String × Option (List Placemark))))
    (h : bf = none ∨ bf = some none ∨
         ∃ d, bf = some (some d) ∧ parse_kml_point (some d) = none) :
    process_all_points bf dests = ⟨1, []⟩ := by
  have hbase : get_base_point bf = none := by
    rcases h with h | h | ⟨d, hd, hp⟩
    · subst h; rfl
    · subst h; rfl
    · subst hd; exact hp
  simp only [process_all_points, hbase]

theorem C8_fatal_witness : process_all_points none none = ⟨1, []⟩ :=
  C8_fatal none none (Or.inl rfl)

/-- C10: the claim quantifies over *any* non-numeric coordinate component,
but a component beyond the third is never consumed: a marker with text
`"1,2,3,x"` — whose fourth component `"x"` is not a valid number — parses
successfully and extraction continues, returning both markers of the
document rather than stopping. -/
theorem C10_counterexample :
    splitC (stripBoth "1,2,3,x".data) = ["1".data, "2".data, "3".data, "x".data] ∧
    pyFloat? "x".data = none ∧
    (parse_all_kml_points (some [pmFourComp, pmPlain23])).length = 2 := by
  refine ⟨by decide, by decide, by decide⟩

/-- C10 (amended): when a *consumed* component (first, second, or third with
more than two present) of a marker with at least two components fails to
parse as a number, extraction of the document stops at that marker: the
records of the preceding markers are returned unchanged and every following
marker is dropped; no exception escapes (the model is total). -/
theorem C10_amended (i : ℕ) (pms₁ pms₂ : List Placemark) (pm : Placemark)
    (h1 : ∀ pm' ∈ pms₁, pmCoordResult pm' ≠ some .floatFail)
    (h2 : pmCoordResult pm = some .floatFail) :
    parseAllGo i (pms₁ ++ pm :: pms₂) = parseAllGo i pms₁ := by
  rw [parseAllGo_append_clean i pms₁ (pm :: pms₂) h1]
  have hstop : parseAllGo (i + pms₁.length) (pm :: pms₂) = [] := by
    have hf : pointRecOf (i + pms₁.length) pm = .fail := pointRecOf_eq_fail_iff.mpr h2
    simp [parseAllGo, hf]
  rw [hstop, List.append_nil]

theorem C10_amended_witness :
    parseAllGo 0 ([pmPlain23] ++ pmFloatFail :: [pmBadOne]) = parseAllGo 0 [pmPlain23] :=
  C10_amended 0 [pmPlain23] [pmBadOne] pmFloatFail (by decide) (by decide)

/-- C9: the rendered document contains exactly one `<LineString>` path
feature; the sanitized display name is embedded both as the document title
(`<name>…​.kml</name>`) and as the feature's display name (`<name>…</name>`);
and the feature's coordinates are exactly the two vertices base then target,
each serialized as `lon,lat,elev` and separated by a space. -/
theorem C9_render (b t : GeoPoint) (n : Str) :
    countOcc "<LineString>".data (create_dji_mission_kml b t n) = 1 ∧
    (∃ p q r, create_dji_mission_kml b t n =
       p ++ "<name>".data ++ clean_name n ++ ".kml</name>".data ++ q ++
       "<name>".data ++ clean_name n ++ "</name>".data ++ r) ∧
    (∃ p r, create_dji_mission_kml b t n =
       p ++ "<coordinates>\n\t\t\t\t".data ++ serGeo b ++ " ".data ++ serGeo t ++
       " \n\t\t\t</coordinates>".data ++ r) ∧
    serGeo b = serNum b.lon ++ ",".data ++ serNum b.lat ++ ",".data ++ serNum b.alt := by
  have hsp : (" ".data : Str) = [' '] := by decide
  have hcm : (",".data : Str) = [','] := by decide
  refine ⟨?_, ?_, ?_, ?_⟩
  · have hhead : ("<LineString>".data).head? = some '<' := by decide
    have hA : countOcc "<LineString>".data tplA = 0 := by decide
    have hB : countOcc "<LineString>".data tplB = 0 := by decide
    have hC : countOcc "<LineString>".data tplC = 1 := by decide
    have hD : countOcc "<LineString>".data tplD = 0 := by decide
    have sA : ∀ m < ("<LineString>".data).length, 0 < m →
        ¬ (("<LineString>".data).take m <:+ tplA) := by decide
    have sB : ∀ m < ("<LineString>".data).length, 0 < m →
        ¬ (("<LineString>".data).take m <:+ tplB) := by decide
    have sC : ∀ m < ("<LineString>".data).length, 0 < m →
        ¬ (("<LineString>".data).take m <:+ tplC) := by decide
    have hspm : '<' ∉ ([' '] : Str) := by decide
    unfold create_dji_mission_kml
    simp only [List.append_assoc]
    rw [countOcc_append_const tplA _ sA,
        countOcc_append_nolt (clean_name n) _ hhead (lt_not_mem_clean_name n),
        countOcc_append_const tplB _ sB,
        countOcc_append_nolt (clean_name n) _ hhead (lt_not_mem_clean_name n),
        countOcc_append_const tplC _ sC,
        countOcc_append_nolt (serGeo b) _ hhead (lt_not_mem_serGeo b),
        countOcc_append_nolt [' '] _ hhead hspm,
        countOcc_append_nolt (serGeo t) _ hhead (lt_not_mem_serGeo t),
        hA, hB, hC, hD]
  · refine ⟨tplA.take (tplA.length - 6), (tplB.drop 11).take (tplB.length - 17),
      tplC.drop 7 ++ serGeo b ++ [' '] ++ serGeo t ++ tplD, ?_⟩
    have eA : tplA = tplA.take (tplA.length - 6) ++ "<name>".data := by decide
    have eB : tplB = ".kml</name>".data ++ (tplB.drop 11).take (tplB.length - 17) ++
        "<name>".data := by decide
    have eC : tplC = "</name>".data ++ tplC.drop 7 := by decide
    unfold create_dji_mission_kml
    conv_lhs => rw [eA, eB, eC]
    simp [List.append_assoc]
  · refine ⟨tplA ++ clean_name n ++ tplB ++ clean_name n ++ tplC.take (tplC.length - 18),
      tplD.drop 19, ?_⟩
    have eC : tplC = tplC.take (tplC.length - 18) ++ "<coordinates>\n\t\t\t\t".data := by
      decide
    have eD : tplD = " \n\t\t\t</coordinates>".data ++ tplD.drop 19 := by decide
    unfold create_dji_mission_kml
    conv_lhs => rw [eC, eD]
    rw [hsp]
    simp [List.append_assoc]
  · rw [hcm]
    rfl
